import Mathlib

/-!
Verification development for the failhook repository (Go).

The Go source is shallowly embedded: pure fragments of `main.go`,
`handlers/placeholder.go`, `handlers/handlers.go` and `handlers/slack.go`
become Lean functions; the process side effects that the claims talk about
(handler invocations, diagnostic prints, the final process exit status) are
made explicit as returned values.  Go `string` values are modelled by Lean
`String`; byte-level operations (UTF-8 escaping in `url.QueryEscape`) expand
each character to its UTF-8 bytes explicitly.
-/

namespace Failhook

/-! ## Go standard-library string primitives used by the source -/

/-- Go `unicode.IsSpace`: the Unicode White_Space property, exactly the code
points Go reports as space. -/
def goIsSpace (c : Char) : Bool :=
  let n := c.toNat
  n == 0x20 || n == 0x09 || n == 0x0A || n == 0x0B || n == 0x0C || n == 0x0D ||
  n == 0x85 || n == 0xA0 || n == 0x1680 || (0x2000 ≤ n && n ≤ 0x200A) ||
  n == 0x2028 || n == 0x2029 || n == 0x202F || n == 0x205F || n == 0x3000

/-- Drop the longest prefix of white-space characters (Go `strings.TrimLeftFunc`
with `unicode.IsSpace`). -/
def trimLeftW (l : List Char) : List Char :=
  l.dropWhile goIsSpace

/-- Drop the longest suffix of white-space characters (Go `strings.TrimRightFunc`
with `unicode.IsSpace`). -/
def trimRightW (l : List Char) : List Char :=
  (l.reverse.dropWhile goIsSpace).reverse

/-- Go `strings.TrimSpace`: trim leading and trailing white space. -/
def goTrimSpace (s : String) : String :=
  ⟨trimRightW (trimLeftW s.data)⟩

/-- Go `strings.Contains s sub` on character lists: `true` iff `sub` occurs as a
contiguous segment of `s` (always `true` for the empty `sub`). -/
def goContainsList : List Char → List Char → Bool
  | [], sub => sub.isEmpty
  | c :: rest, sub => sub.isPrefixOf (c :: rest) || goContainsList rest sub

/-- Go `strings.Contains` on strings. -/
def goContains (s sub : String) : Bool :=
  goContainsList s.data sub.data

/-- Core loop of Go `strings.Replace s old new -1` for non-empty `old`:
replace the leftmost occurrence, continue after the inserted replacement.
`fuel` bounds the recursion; `s.length` suffices because every step consumes
at least one character of `s`. -/
def goReplaceAux (old new : List Char) : Nat → List Char → List Char
  | 0, s => s
  | Nat.succ fuel, s =>
    match s with
    | [] => []
    | c :: rest =>
      if old.isPrefixOf (c :: rest) then
        new ++ goReplaceAux old new fuel ((c :: rest).drop old.length)
      else
        c :: goReplaceAux old new fuel rest

/-- Go `strings.Replace s old new -1` on character lists.  When `old` is empty
Go inserts `new` before every rune and after the last one. -/
def goReplaceList (s old new : List Char) : List Char :=
  match old with
  | [] => new ++ s.foldr (fun c acc => c :: (new ++ acc)) []
  | _ :: _ => goReplaceAux old new s.length s

/-- Go `strings.Replace s old new -1` on strings. -/
def goReplaceAll (s old new : String) : String :=
  ⟨goReplaceList s.data old.data new.data⟩

/-- UTF-8 encoding of a single character, as its list of byte values. -/
def utf8Bytes (c : Char) : List Nat :=
  let n := c.toNat
  if n < 0x80 then [n]
  else if n < 0x800 then
    [0xC0 + n / 64, 0x80 + n % 64]
  else if n < 0x10000 then
    [0xE0 + n / 4096, 0x80 + (n / 64) % 64, 0x80 + n % 64]
  else
    [0xF0 + n / 262144, 0x80 + (n / 4096) % 64, 0x80 + (n / 64) % 64, 0x80 + n % 64]

/-- Bytes Go's `url.QueryEscape` leaves unescaped: ASCII alphanumerics and
`-`, `_`, `.`, `~`. -/
def isUnreservedQueryByte (b : Nat) : Bool :=
  (0x30 ≤ b && b ≤ 0x39) || (0x41 ≤ b && b ≤ 0x5A) || (0x61 ≤ b && b ≤ 0x7A) ||
  b == 0x2D || b == 0x5F || b == 0x2E || b == 0x7E

/-- Upper-case hexadecimal digit for a value below 16. -/
def hexDigitUpper (n : Nat) : Char :=
  if n < 10 then Char.ofNat (48 + n) else Char.ofNat (65 + (n - 10))

/-- Escape one byte the way Go's `url.QueryEscape` does: unreserved bytes stay,
a space becomes `+`, every other byte becomes `%XX` with upper-case hex. -/
def queryEscapeByte (b : Nat) : List Char :=
  if isUnreservedQueryByte b then [Char.ofNat b]
  else if b == 0x20 then ['+']
  else ['%', hexDigitUpper (b / 16), hexDigitUpper (b % 16)]

/-- Go `net/url.QueryEscape`: form/query percent-encoding of a string, applied
byte-wise over its UTF-8 encoding. -/
def queryEscape (s : String) : String :=
  ⟨((s.data.map utf8Bytes).flatten.map queryEscapeByte).flatten⟩

/-! ## Placeholder registry (`handlers/placeholder.go`) -/

/-- Go `PlaceholderFunc`: a replacement-text producer from exit code and
output. -/
def PlaceholderFunc : Type := Int → String → String

/-- Go `PlaceholderRegistry`.  The Go field is a `map[string]PlaceholderFunc`;
it is modelled as an association list, whose order stands for the (unspecified)
iteration order of the map during a replace pass. -/
structure PlaceholderRegistry where
  placeholders : List (String × PlaceholderFunc)

/-- Insert-or-overwrite on the association list, mirroring Go map assignment
(`pr.placeholders[placeholder] = fn` in `Register`). -/
def updateAssoc : List (String × PlaceholderFunc) → String → PlaceholderFunc →
    List (String × PlaceholderFunc)
  | [], tok, fn => [(tok, fn)]
  | (t, f) :: rest, tok, fn =>
    if t == tok then (tok, fn) :: rest else (t, f) :: updateAssoc rest tok fn

/-- Go `(*PlaceholderRegistry).Register`. -/
def register (pr : PlaceholderRegistry) (tok : String) (fn : PlaceholderFunc) :
    PlaceholderRegistry :=
  ⟨updateAssoc pr.placeholders tok fn⟩

/-- The five built-in placeholders installed by `NewPlaceholderRegistry`.
The three wall-clock placeholders call `time.Now().Format(...)` at
substitution time; their formatted values are abstracted as the parameters
`ts` (RFC3339 timestamp), `date` (`YYYY-MM-DD`) and `tm` (`HH:MM:SS`). -/
def builtinPlaceholders (ts date tm : String) : List (String × PlaceholderFunc) :=
  [("__STATUS_CODE__", fun exitCode _ => toString exitCode),
   ("__OUTPUT__", fun _ output => output),
   ("__TIMESTAMP__", fun _ _ => ts),
   ("__DATE__", fun _ _ => date),
   ("__TIME__", fun _ _ => tm)]

/-- Go `NewPlaceholderRegistry`, with the wall-clock reads abstracted. -/
def newPlaceholderRegistry (ts date tm : String) : PlaceholderRegistry :=
  ⟨builtinPlaceholders ts date tm⟩

/-- Go `(*PlaceholderRegistry).Replace`: for every registered token, replace
all of its occurrences by the token's function applied to the exit code and
output, one token after the other. -/
def replace (pr : PlaceholderRegistry) (text : String) (exitCode : Int)
    (output : String) : String :=
  pr.placeholders.foldl (fun acc p => goReplaceAll acc p.1 (p.2 exitCode output)) text

/-- Go `(*PlaceholderRegistry).ReplaceURLEncoded`: like `Replace` but each
replacement value passes through `url.QueryEscape` first. -/
def replaceURLEncoded (pr : PlaceholderRegistry) (text : String) (exitCode : Int)
    (output : String) : String :=
  pr.placeholders.foldl
    (fun acc p => goReplaceAll acc p.1 (queryEscape (p.2 exitCode output))) text

/-- State-passing form of `Replace`: the Go method has a pointer receiver, so
we return the receiver's state after the call.  The method body only reads
`pr.placeholders`, hence the state comes back unchanged. -/
def replaceM (pr : PlaceholderRegistry) (text : String) (exitCode : Int)
    (output : String) : String × PlaceholderRegistry :=
  (replace pr text exitCode output, pr)

/-- State-passing form of `ReplaceURLEncoded`; the body only reads
`pr.placeholders`. -/
def replaceURLEncodedM (pr : PlaceholderRegistry) (text : String) (exitCode : Int)
    (output : String) : String × PlaceholderRegistry :=
  (replaceURLEncoded pr text exitCode output, pr)

/-! ## Failure handlers and dispatch (`main.go`, `FailHook.HandleFailure`) -/

/-- A `handlers.FailureHandler` as `HandleFailure` sees it: a description and
the behaviour of its `Handle` method, `some msg` standing for a non-nil Go
error with message `msg` and `none` for a nil error. -/
structure Handler where
  description : String
  handle : Int → String → Option String

/-- Observable effects of one `HandleFailure` run, in order of occurrence. -/
inductive HFEvent
  | debugLine (line : String)
  | invoke (description : String) (exitCode : Int) (output : String)
  | errorReport (line : String)
deriving DecidableEq

/-- Whether an event is a call of some handler's `Handle`. -/
def HFEvent.isInvoke : HFEvent → Bool
  | HFEvent.invoke _ _ _ => true
  | _ => false

/-- Whether an event is a line written to the error-diagnostic stream. -/
def HFEvent.isErrorReport : HFEvent → Bool
  | HFEvent.errorReport _ => true
  | _ => false

/-- Go `(*FailHook).HandleFailure` (main.go lines 83-92), as the sequence of
its observable effects: an optional debug line, the `Handle` call, and, when
that call returns a non-nil error, one line on standard error formatted
`Error with handler <desc>: <err>` — then the next handler, unconditionally. -/
def handleFailure (debug : Bool) (hs : List Handler) (exitCode : Int)
    (output : String) : List HFEvent :=
  match hs with
  | [] => []
  | h :: rest =>
    (if debug then [HFEvent.debugLine ("Executing handler: " ++ h.description)] else [])
    ++ HFEvent.invoke h.description exitCode output
    :: (match h.handle exitCode output with
        | some e => [HFEvent.errorReport ("Error with handler " ++ h.description ++ ": " ++ e)]
        | none => [])
    ++ handleFailure debug rest exitCode output

/-! ## RunCommand result derivation (`main.go`, `FailHook.RunCommand`) -/

/-- The error value `cmd.Run()` can produce, as far as lines 64-76 of main.go
inspect it: an `*exec.ExitError` whose `Sys()` is a `syscall.WaitStatus`
carrying a numeric exit status (`exitError (some n)`), an `*exec.ExitError`
whose `Sys()` is not a `syscall.WaitStatus` (`exitError none`), or any other
error such as a launch failure (`otherError`). -/
inductive GoRunError
  | exitError (waitStatus : Option Int)
  | otherError
deriving DecidableEq

/-- Exit-code derivation of `RunCommand` (main.go lines 64-76): `exitCode`
stays at its zero value when `err` is nil, is the extracted exit status for an
`*exec.ExitError` with a `WaitStatus`, and is 1 otherwise. -/
def deriveExitCode : Option GoRunError → Int
  | none => 0
  | some (GoRunError.exitError (some st)) => st
  | some (GoRunError.exitError none) => 1
  | some GoRunError.otherError => 1

/-- Combined output of `RunCommand` (main.go line 78):
`strings.TrimSpace(stdout.String() + stderr.String())`. -/
def runCombinedOutput (stdout stderr : String) : String :=
  goTrimSpace (stdout ++ stderr)

/-! ## Post-run classification and the tail of `main` (main.go lines 195-221) -/

/-- The value of `ctx.Err()` observed after `RunCommand` returns. -/
inductive CtxErr
  | noErr
  | deadlineExceeded
  | canceled
deriving DecidableEq

/-- The synthetic output installed on timeout (main.go line 201). -/
def timeoutMessage (timeoutSecs : Int) : String :=
  "Command timed out after " ++ toString timeoutSecs ++ " seconds"

/-- The synthetic output installed on interruption (main.go line 205). -/
def interruptMessage : String :=
  "Command was interrupted"

/-- Post-run classification (main.go lines 198-206): deadline-exceeded forces
`(124, timeout message)`; otherwise cancellation together with a non-nil
`RunCommand` error forces `(130, interruption message)`; otherwise the
`RunCommand` pair is kept verbatim. -/
def classifyOutcome (timeoutSecs : Int) (ctxErr : CtxErr) (errNonNil : Bool)
    (exitCode : Int) (output : String) : Int × String :=
  if ctxErr = CtxErr.deadlineExceeded then
    (124, timeoutMessage timeoutSecs)
  else if ctxErr = CtxErr.canceled ∧ errNonNil = true then
    (130, interruptMessage)
  else
    (exitCode, output)

/-- Tail of `main` after classification (main.go lines 208-221): with a
resolved exit code of 0 the process calls `os.Exit(0)` without touching the
handlers; otherwise `HandleFailure(exitCode, output)` runs and then `main`
returns normally, which makes the Go process exit with status 0.  The first
component records the `HandleFailure` invocation (if any), the second the
process's final exit status. -/
def mainEpilogue (resolvedExitCode : Int) (resolvedOutput : String) :
    Option (Int × String) × Int :=
  if resolvedExitCode = 0 then
    (none, 0)
  else
    (some (resolvedExitCode, resolvedOutput), 0)

/-! ## Handler registration in `main` (main.go lines 181-192) -/

/-- The four handler constructors `main` can register. -/
inductive HandlerKind
  | commandH
  | webhookH
  | syslogH
  | slackH
deriving DecidableEq

/-- Handler registration (main.go lines 181-192): four `if flag != ""`
blocks in textual order, each appending one handler built from its flag
value. -/
def registerHandlers (c w s sl : String) : List (HandlerKind × String) :=
  (if c == "" then [] else [(HandlerKind.commandH, c)])
  ++ (if w == "" then [] else [(HandlerKind.webhookH, w)])
  ++ (if s == "" then [] else [(HandlerKind.syslogH, s)])
  ++ (if sl == "" then [] else [(HandlerKind.slackH, sl)])

/-! ## Slack handler (`handlers/slack.go`) -/

/-- Go `SlackHandler`. -/
structure SlackHandler where
  webhookURL : String
  message : String
  channel : String
  username : String
  registry : PlaceholderRegistry

/-- Go `SlackMessage` (the struct that is JSON-marshalled). -/
structure SlackMessage where
  text : String
  channel : String
  username : String

/-- Go `NewSlackHandler` (slack.go lines 27-40): zero-valued fields, then
`username` defaulted to `"FailHook"`, a fresh built-in registry (wall-clock
reads abstracted as `ts`/`date`/`tm`), then the functional options applied in
order. -/
def newSlackHandler (ts date tm url msg : String)
    (options : List (SlackHandler → SlackHandler)) : SlackHandler :=
  options.foldl (fun h opt => opt h)
    { webhookURL := url, message := msg, channel := "", username := "FailHook",
      registry := newPlaceholderRegistry ts date tm }

/-- Go `WithChannel`. -/
def withChannel (c : String) : SlackHandler → SlackHandler :=
  fun h => { h with channel := c }

/-- Go `WithUsername`. -/
def withUsername (u : String) : SlackHandler → SlackHandler :=
  fun h => { h with username := u }

/-- The fields of the JSON object `encoding/json` produces for a
`SlackMessage`: `text` always, `channel` and `username` only when non-empty
(their tags carry `omitempty`, and the empty string is Go's empty value). -/
def slackMessageFields (m : SlackMessage) : List (String × String) :=
  [("text", m.text)]
  ++ (if m.channel == "" then [] else [("channel", m.channel)])
  ++ (if m.username == "" then [] else [("username", m.username)])

/-- Outcome of the `http.Post` call in `SlackHandler.Handle`. -/
inductive PostOutcome
  | transportError (msg : String)
  | httpStatus (code : Nat)
deriving DecidableEq

/-- The HTTP request `SlackHandler.Handle` sends: target URL, content type,
and the marshalled JSON object as its field list. -/
structure SlackRequest where
  url : String
  contentType : String
  fields : List (String × String)

/-- Go `(*SlackHandler).Handle` (slack.go lines 57-90): expand the message
template, build the `SlackMessage` (channel only set when configured), marshal
it and POST it as `application/json`; nil is returned exactly when the POST
yields HTTP status 200.  (`json.Marshal` cannot fail on a struct of plain
strings, so the marshal-error branch is dead and has no counterpart here.)
The transport outcome is abstracted as the `outcome` argument. -/
def slackHandle (h : SlackHandler) (exitCode : Int) (output : String)
    (outcome : PostOutcome) : SlackRequest × Option String :=
  let message := replace h.registry h.message exitCode output
  let slackMsg : SlackMessage := { text := message, channel := "", username := h.username }
  let slackMsg := if h.channel == "" then slackMsg else { slackMsg with channel := h.channel }
  let req : SlackRequest :=
    { url := h.webhookURL, contentType := "application/json",
      fields := slackMessageFields slackMsg }
  match outcome with
  | PostOutcome.transportError m => (req, some ("error sending Slack message: " ++ m))
  | PostOutcome.httpStatus code =>
    (req, if code == 200 then none
          else some ("slack API returned status code " ++ toString code))

/-! ## Spec-side definitions used for comparison -/

/-- Modelled from the spec: `combinedOutput` = trimmed(stdout-buffer)
concatenated with trimmed(stderr-buffer), then the whole result trimmed —
the per-stream trimming the spec describes, to be compared with
`runCombinedOutput` from the source. -/
def specCombinedOutputPerStream (stdout stderr : String) : String :=
  goTrimSpace (goTrimSpace stdout ++ goTrimSpace stderr)

/-- Independent formulation of trimming a trailing run of white space,
written by direct recursion (rather than via `reverse`), used to state the
amended form of the combined-output claim. -/
def dropTrailingW : List Char → List Char
  | [] => []
  | c :: rest =>
    match dropTrailingW rest with
    | [] => if goIsSpace c then [] else [c]
    | r => c :: r

/-! ## Helper lemmas -/

theorem dropWhile_append_eq (p : Char → Bool) (l₁ l₂ : List Char) :
    (l₁ ++ l₂).dropWhile p =
      if (l₁.dropWhile p).isEmpty then l₂.dropWhile p else l₁.dropWhile p ++ l₂ := by
  induction l₁ with
  | nil => simp
  | cons c rest ih =>
    by_cases hc : p c = true
    · simpa [List.dropWhile_cons, hc] using ih
    · simp [List.dropWhile_cons, hc]

theorem trimRightW_eq_dropTrailingW (l : List Char) :
    trimRightW l = dropTrailingW l := by
  induction l with
  | nil => rfl
  | cons c rest ih =>
    unfold trimRightW
    rw [List.reverse_cons, dropWhile_append_eq]
    by_cases hr : (rest.reverse.dropWhile goIsSpace).isEmpty
    · have hrest : dropTrailingW rest = [] := by
        rw [← ih]
        show (rest.reverse.dropWhile goIsSpace).reverse = []
        simpa [List.isEmpty_iff] using hr
      by_cases hc : goIsSpace c = true
      · simp [hr, List.dropWhile_cons, hc, dropTrailingW, hrest]
      · simp [hr, List.dropWhile_cons, hc, dropTrailingW, hrest]
    · have hrest : dropTrailingW rest = (rest.reverse.dropWhile goIsSpace).reverse := ih.symm
      rw [if_neg hr]
      rcases hd : rest.reverse.dropWhile goIsSpace with _ | ⟨d, ds⟩
      · simp [hd] at hr
      · simp only [hd] at hrest
        simp [dropTrailingW, hrest, hd]

theorem goContainsList_nil_right (s : List Char) : goContainsList s [] = true := by
  cases s <;> simp [goContainsList, List.isPrefixOf]

theorem goReplaceAux_of_not_contains (old new : List Char) :
    ∀ (fuel : Nat) (s : List Char), s.length ≤ fuel →
      goContainsList s old = false → goReplaceAux old new fuel s = s := by
  intro fuel
  induction fuel with
  | zero => intro s _ _; rfl
  | succ fuel ih =>
    intro s hlen hcon
    match s with
    | [] => rfl
    | c :: rest =>
      rw [goContainsList] at hcon
      cases hp : old.isPrefixOf (c :: rest) with
      | true => rw [hp] at hcon; simp at hcon
      | false =>
        rw [hp] at hcon
        simp only [Bool.false_or] at hcon
        have hlen' : rest.length ≤ fuel := by
          simpa [List.length_cons, Nat.succ_le_succ_iff] using hlen
        simp [goReplaceAux, hp, ih rest hlen' hcon]

theorem goReplaceAll_of_not_contains (s old new : String)
    (h : goContains s old = false) : goReplaceAll s old new = s := by
  unfold goContains at h
  rcases hd : old.data with _ | ⟨c, cs⟩
  · rw [hd, goContainsList_nil_right] at h
    exact absurd h (by simp)
  · rw [hd] at h
    show String.mk (goReplaceList s.data old.data new.data) = s
    rw [hd]
    show String.mk (goReplaceAux (c :: cs) new.data s.data.length s.data) = s
    rw [goReplaceAux_of_not_contains (c :: cs) new.data s.data.length s.data le_rfl h]

theorem foldl_replace_of_no_token (ec : Int) (o : String)
    (ps : List (String × PlaceholderFunc)) :
    ∀ text : String, (∀ p ∈ ps, goContains text p.1 = false) →
      ps.foldl (fun acc p => goReplaceAll acc p.1 (p.2 ec o)) text = text := by
  induction ps with
  | nil => intro text _; rfl
  | cons p ps ih =>
    intro text h
    have hp : goContains text p.1 = false := h p (List.mem_cons_self p ps)
    have hstep : goReplaceAll text p.1 (p.2 ec o) = text :=
      goReplaceAll_of_not_contains text p.1 (p.2 ec o) hp
    show ps.foldl _ (goReplaceAll text p.1 (p.2 ec o)) = text
    rw [hstep]
    exact ih text (fun q hq => h q (List.mem_cons_of_mem p hq))

/-! ## Claim theorems -/

/-- C2: after `RunCommand` returns, deadline-exceeded forces the pair
`(124, synthetic timeout message)` regardless of what `RunCommand` returned;
cancellation with a non-nil `RunCommand` error forces
`(130, synthetic interruption message)`; in every other case `RunCommand`'s
own exit code and output are used verbatim. -/
theorem C2_post_run_classification (timeoutSecs exitCode : Int) (output : String)
    (errNonNil : Bool) :
    classifyOutcome timeoutSecs CtxErr.deadlineExceeded errNonNil exitCode output
      = (124, timeoutMessage timeoutSecs)
  ∧ classifyOutcome timeoutSecs CtxErr.canceled true exitCode output
      = (130, interruptMessage)
  ∧ classifyOutcome timeoutSecs CtxErr.canceled false exitCode output
      = (exitCode, output)
  ∧ classifyOutcome timeoutSecs CtxErr.noErr errNonNil exitCode output
      = (exitCode, output) := by
  refine ⟨?_, ?_, ?_, ?_⟩ <;> simp [classifyOutcome]

/-- C4: `RunCommand` derives exit code 0 from a nil error, the extracted
numeric status from an `*exec.ExitError` carrying a `WaitStatus` (so `exit 42`
yields 42), and 1 from an `*exec.ExitError` without an extractable status or
from any other (launch) failure. -/
theorem C4_exit_code_derivation (st : Int) :
    deriveExitCode none = 0
  ∧ deriveExitCode (some (GoRunError.exitError (some st))) = st
  ∧ deriveExitCode (some (GoRunError.exitError (some 42))) = 42
  ∧ deriveExitCode (some (GoRunError.exitError none)) = 1
  ∧ deriveExitCode (some GoRunError.otherError) = 1 :=
  ⟨rfl, rfl, rfl, rfl, rfl⟩

/-- C9: `main` registers handlers as the fixed ordered list Command, Webhook,
Syslog, Slack restricted to the non-empty flags, so the kinds that do get
registered always appear in that relative order. -/
theorem C9_registration_order (c w s sl : String) :
    registerHandlers c w s sl
      = ([(HandlerKind.commandH, c), (HandlerKind.webhookH, w),
          (HandlerKind.syslogH, s), (HandlerKind.slackH, sl)]).filter
          (fun p => !(p.2 == ""))
  ∧ List.Sublist ((registerHandlers c w s sl).map Prod.fst)
      [HandlerKind.commandH, HandlerKind.webhookH, HandlerKind.syslogH,
       HandlerKind.slackH] := by
  have hfilter : registerHandlers c w s sl
      = ([(HandlerKind.commandH, c), (HandlerKind.webhookH, w),
          (HandlerKind.syslogH, s), (HandlerKind.slackH, sl)]).filter
          (fun p => !(p.2 == "")) := by
    cases hc : c == "" <;> cases hw : w == "" <;> cases hs2 : s == "" <;>
      cases hsl : sl == "" <;>
      simp [registerHandlers, List.filter, hc, hw, hs2, hsl]
  refine ⟨hfilter, ?_⟩
  rw [hfilter]
  simpa using List.Sublist.map Prod.fst
    (List.filter_sublist (l := [(HandlerKind.commandH, c), (HandlerKind.webhookH, w),
      (HandlerKind.syslogH, s), (HandlerKind.slackH, sl)]))

/-- C10: `Replace` and `ReplaceURLEncoded` leave the registry untouched —
the post-call registry state equals the pre-call state, so a subsequent call
substitutes exactly the same tokens. -/
theorem C10_replace_is_read_only (pr : PlaceholderRegistry) (text text2 : String)
    (exitCode exitCode2 : Int) (output output2 : String) :
    (replaceM pr text exitCode output).2.placeholders = pr.placeholders
  ∧ (replaceURLEncodedM pr text exitCode output).2.placeholders = pr.placeholders
  ∧ replace (replaceM pr text exitCode output).2 text2 exitCode2 output2
      = replace pr text2 exitCode2 output2
  ∧ replaceURLEncoded (replaceURLEncodedM pr text exitCode output).2 text2 exitCode2 output2
      = replaceURLEncoded pr text2 exitCode2 output2 :=
  ⟨rfl, rfl, rfl, rfl⟩

/-- C1: evaluation of the tail of `main` at the failing input.  A run whose
resolved exit code is 42 does invoke `HandleFailure(42, output)`, but the
process then exits with status 0 (main.go falls off the end of `main` after
line 221 instead of calling `os.Exit(exitCode)`), contradicting the claimed
propagation of the resolved exit code; the success path (resolved exit code 0,
no handler, process exit 0) does hold. -/
theorem C1_exit_code_not_propagated :
    classifyOutcome 0 CtxErr.noErr true 42 "boom" = (42, "boom")
  ∧ mainEpilogue 42 "boom" = (some (42, "boom"), 0)
  ∧ (mainEpilogue 42 "boom").2 ≠ 42
  ∧ mainEpilogue 0 "ok" = (none, 0) := by
  refine ⟨?_, ?_, ?_, ?_⟩ <;> simp [classifyOutcome, mainEpilogue]

/-- C3: for a non-zero exit code, `HandleFailure` calls `Handle(e, o)` exactly
once on every registered handler, in registration order (the invoke events are
exactly one per handler, in list order), and a handler returning an error only
adds a diagnostic line tagged with that handler's description — it neither
stops dispatch nor makes `HandleFailure` fail (its result type has no error
channel). -/
theorem C3_all_handlers_invoked_in_order (debug : Bool) (hs : List Handler)
    (exitCode : Int) (output : String) (_hne : exitCode ≠ 0) :
    (handleFailure debug hs exitCode output).filter HFEvent.isInvoke
      = hs.map (fun h => HFEvent.invoke h.description exitCode output)
  ∧ (handleFailure debug hs exitCode output).filter HFEvent.isErrorReport
      = hs.filterMap (fun h => (h.handle exitCode output).map
          (fun e => HFEvent.errorReport
            ("Error with handler " ++ h.description ++ ": " ++ e))) := by
  induction hs with
  | nil => exact ⟨rfl, rfl⟩
  | cons h rest ih =>
    obtain ⟨ih1, ih2⟩ := ih
    refine ⟨?_, ?_⟩ <;>
      cases debug <;> rcases hh : h.handle exitCode output with _ | e <;>
        simp [handleFailure, List.filter_append, HFEvent.isInvoke,
              HFEvent.isErrorReport, hh, ih1, ih2]

theorem C3_all_handlers_invoked_in_order_witness :
    (1 : Int) ≠ 0
  ∧ ((handleFailure false
        [⟨"h1", fun _ _ => some "boom"⟩, ⟨"h2", fun _ _ => none⟩] 1 "out").filter
          HFEvent.isInvoke
      = ([⟨"h1", fun _ _ => some "boom"⟩, ⟨"h2", fun _ _ => none⟩] : List Handler).map
          (fun h => HFEvent.invoke h.description 1 "out")
    ∧ (handleFailure false
        [⟨"h1", fun _ _ => some "boom"⟩, ⟨"h2", fun _ _ => none⟩] 1 "out").filter
          HFEvent.isErrorReport
      = ([⟨"h1", fun _ _ => some "boom"⟩, ⟨"h2", fun _ _ => none⟩] : List Handler).filterMap
          (fun h => (h.handle 1 "out").map
            (fun e => HFEvent.errorReport
              ("Error with handler " ++ h.description ++ ": " ++ e)))) :=
  ⟨by decide,
   C3_all_handlers_invoked_in_order false
     [⟨"h1", fun _ _ => some "boom"⟩, ⟨"h2", fun _ _ => none⟩] 1 "out" (by decide)⟩

/-- C5 counterexample: with stdout buffer `"a "` and stderr buffer `" b"`, the
source computes `TrimSpace("a " + " b") = "a  b"`, while the claimed
per-stream trimming would give `TrimSpace(TrimSpace("a ") + TrimSpace(" b")) =
"ab"` — the two disagree, so the combined output is not built from
individually trimmed buffers. -/
theorem C5_counterexample :
    runCombinedOutput "a " " b" = "a  b"
  ∧ specCombinedOutputPerStream "a " " b" = "ab"
  ∧ runCombinedOutput "a " " b" ≠ specCombinedOutputPerStream "a " " b" := by
  refine ⟨by decide, by decide, by decide⟩

/-- C5 (amended): `combinedOutput` is the plain concatenation of the stdout
buffer and the stderr buffer (stdout first, no delimiter, buffers not
individually trimmed), with the whole result trimmed of leading and trailing
white space. -/
theorem C5_combined_output_whole_trim (stdout stderr : String) :
    runCombinedOutput stdout stderr
      = String.mk (dropTrailingW ((stdout ++ stderr).data.dropWhile goIsSpace)) := by
  unfold runCombinedOutput goTrimSpace trimLeftW
  rw [trimRightW_eq_dropTrailingW]

/-- C6: `ReplaceURLEncoded` performs exactly the substitution `Replace` would
perform on the registry whose replacement functions are post-composed with
`url.QueryEscape` — only the substituted values are encoded, the surrounding
template text is untouched; in particular substituting output
`"Error & Warning"` for `__OUTPUT__` in a query template yields
`"Error+%26+Warning"` in place of the token. -/
theorem C6_urlencoded_replace (pr : PlaceholderRegistry) (text : String)
    (ec : Int) (o : String) :
    replaceURLEncoded pr text ec o
      = replace ⟨pr.placeholders.map
          (fun p => (p.1, fun ec2 o2 => queryEscape (p.2 ec2 o2)))⟩ text ec o
  ∧ replaceURLEncoded (newPlaceholderRegistry "TS" "D" "TM")
      "https://example.com?output=__OUTPUT__" 0 "Error & Warning"
      = "https://example.com?output=Error+%26+Warning" := by
  constructor
  · obtain ⟨l⟩ := pr
    simp only [replaceURLEncoded, replace]
    induction l generalizing text with
    | nil => rfl
    | cons p ps ih =>
      simp only [List.map_cons, List.foldl_cons]
      exact ih _
  · decide

/-- C7 counterexample: with the built-in registry, text `"__OUTPUT__"` and
output `"__OUTPUT__"`, `Replace` returns the text unchanged even though the
text does contain a registered token (the replacement value coincides with the
token), so "unchanged" does not imply "contains no registered token". -/
theorem C7_counterexample :
    replace (newPlaceholderRegistry "2025-01-01T00:00:00Z" "2025-01-01" "00:00:00")
        "__OUTPUT__" 0 "__OUTPUT__" = "__OUTPUT__"
  ∧ goContains "__OUTPUT__" "__OUTPUT__" = true := by
  refine ⟨by decide, by decide⟩

/-- C7 (amended): if the text contains none of the registered tokens,
`Replace` returns it unchanged; the converse direction of the original claim
fails (see the counterexample: a replacement value that coincides with its
token also leaves the text unchanged). -/
theorem C7_no_token_unchanged (pr : PlaceholderRegistry) (text : String)
    (ec : Int) (o : String)
    (h : ∀ p ∈ pr.placeholders, goContains text p.1 = false) :
    replace pr text ec o = text := by
  unfold replace
  exact foldl_replace_of_no_token ec o pr.placeholders text h

theorem C7_no_token_unchanged_witness :
    (∀ p ∈ (newPlaceholderRegistry "TS" "D" "TM").placeholders,
      goContains "hello" p.1 = false)
  ∧ replace (newPlaceholderRegistry "TS" "D" "TM") "hello" 7 "out" = "hello" :=
  ⟨by decide, C7_no_token_unchanged (newPlaceholderRegistry "TS" "D" "TM")
    "hello" 7 "out" (by decide)⟩

/-- C8: `SlackHandler.Handle` sends a JSON object whose `text` field is always
present (the expanded message), whose `channel` key appears exactly when the
configured channel is non-empty, and whose `username` key appears exactly when
the username field is non-empty — the constructor defaults it to the fixed bot
name `"FailHook"` when no option overrides it; the POST is sent with
content type `application/json`, and `Handle` returns nil exactly when the
POST succeeds with HTTP status 200. -/
theorem C8_slack_payload_and_status (h : SlackHandler) (ec : Int) (o : String)
    (outcome : PostOutcome) :
    ((slackHandle h ec o outcome).1.fields.lookup "text")
      = some (replace h.registry h.message ec o)
  ∧ (((slackHandle h ec o outcome).1.fields.lookup "channel").isSome
      = !(h.channel == ""))
  ∧ (((slackHandle h ec o outcome).1.fields.lookup "username").isSome
      = !(h.username == ""))
  ∧ (slackHandle h ec o outcome).1.contentType = "application/json"
  ∧ ((slackHandle h ec o outcome).2 = none ↔ outcome = PostOutcome.httpStatus 200)
  ∧ (∀ ts date tm url msg, (newSlackHandler ts date tm url msg []).username
      = "FailHook") := by
  refine ⟨?_, ?_, ?_, ?_, ?_, ?_⟩
  · cases hc : h.channel == "" <;> cases outcome <;>
      simp [slackHandle, slackMessageFields, hc, List.lookup]
  · cases hc : h.channel == "" <;> cases hu : h.username == "" <;> cases outcome <;>
      simp [slackHandle, slackMessageFields, hc, hu, List.lookup]
  · cases hc : h.channel == "" <;> cases hu : h.username == "" <;> cases outcome <;>
      simp [slackHandle, slackMessageFields, hc, hu, List.lookup]
  · cases outcome <;> rfl
  · cases outcome with
    | transportError m => simp [slackHandle]
    | httpStatus code =>
      cases hb : (code == 200) with
      | true =>
        have hc2 : code = 200 := by simpa using hb
        subst hc2
        simp [slackHandle]
      | false =>
        have hc2 : code ≠ 200 := by simpa using hb
        simp [slackHandle, hb, hc2]
  · intro ts date tm url msg
    rfl

end Failhook
